import Mathlib

/-!
A shallow embedding of `libsimba_eth/workflow.py` (the SIMBA workflow
execution engine): the plan data model (`Dependency`, `Contract`, `Action`,
`Workflow`), the construction-time validator, the dependency resolver, the
four per-action handlers and the top-level driver `deploy`.

Modelling conventions:
* Python `Optional[T]` fields become `Option T`.
* Python dicts become association lists with insert-or-replace semantics
  (`dinsert` / `dget` below), matching `dict.__setitem__` / `dict.get`.
* Arbitrary (`Any`) argument values are modelled as `Option String`: in the
  engine they are opaque payloads that only ever flow into the abstract
  executor operations, and every value the engine itself stores in an args
  mapping is an optional string (a contract address or encoded call data).
* The abstract `Executor` methods (`deploy_library`, `compile_contract`,
  `deploy_contract`, `submit_transaction`, `set_proxy`) are fields of an
  `Executor` record, threaded through an explicit state `σ` (one network
  round-trip per call).  The two concrete helper methods that call pure
  external code (`load_proxy_encoded`, reading a fixed file, and the `w3`
  ABI encoder inside `encode_calldata`) are the pure fields `proxy_source`
  and `encodeABI`.
* Python exceptions escaping the engine (attribute access on `None`,
  item assignment on `None`, ...) are modelled with `Except PyErr`.
* Python truthiness on optional strings (`if err:`, `not design_id`, ...) is
  `strTruthy`: `None` and `""` are falsy.
-/

namespace SimbaWf

inductive DependencyType where
  | LIBRARY
  | CONSTRUCTOR
  | CONTRACT
  | IMPL
deriving DecidableEq, Repr

inductive ActionType where
  | DEPLOY_LIBRARY
  | DEPLOY_CONTRACT
  | METHOD_CALL
  | DEPLOY_PROXY
deriving DecidableEq, Repr

inductive ActionState where
  | INITED
  | COMPILED
  | COMPLETED
  | FAILED_COMPILE
  | FAILED_COMPLETE
  | FAILED_METHOD_CALL
  | FAILED_SET_PROXY
  | FAILED_DEPENDENCIES
  | INVALID_STATE
deriving DecidableEq, Repr

/-- Python exceptions that the engine can let escape. -/
inductive PyErr where
  | attributeError (attr : String)
  | typeError (msg : String)
deriving DecidableEq, Repr

/-- A JSON-like value, used for `Contract.metadata` and `Contract.abi`
(`Dict[str, Any]` / `List[dict]` in the source). -/
inductive Meta where
  | mNone
  | mStr (s : String)
  | mList (xs : List Meta)
  | mMap (m : List (String × Meta))

/-- Opaque argument payloads (`Any` in `Dict[str, Any]`), see the header. -/
abbrev Value := Option String

/-- The `args` mappings (`Dict[str, Any]`); the key is `Option String` because the
engine can use optional fields (e.g. `dep.target_arg`) as keys. -/
abbrev ArgsD := List (Option String × Value)

/-- The `libraries` mappings (`Dict[str, str]`; the stored address is an
`Optional[str]` at runtime). -/
abbrev Libs := List (String × Option String)

/-- Python `dict.get`: first binding for the key, if any. -/
def dget [BEq κ] (d : List (κ × α)) (k : κ) : Option α :=
  (d.find? (fun p => p.1 == k)).map (fun p => p.2)

/-- Python `dict.__setitem__`: replace an existing binding in place or append
a new one. -/
def dinsert [BEq κ] (k : κ) (v : α) (d : List (κ × α)) : List (κ × α) :=
  if d.any (fun p => p.1 == k) then
    d.map (fun p => if p.1 == k then (p.1, v) else p)
  else d ++ [(k, v)]

/-- Truthiness of an `Optional[str]`: `None` and `""` are falsy. -/
def strTruthy : Option String → Bool
  | none => false
  | some s => !(s == "")

structure Contract where
  id : Option String := none
  address : Option String := none
  api_name : Option String := none
  design_id : Option String := none
  abi : Option (List Meta) := none
  metadata : Option Meta := none

structure Dependency where
  dependency_type : DependencyType
  parent : String
  target_arg : Option String := none
  method_name : Option String := none
  method_args : Option ArgsD := none
deriving DecidableEq

structure Action where
  action_type : ActionType
  contract_name : Option String := none
  code : Option String := none
  dependencies : Option (List Dependency) := none
  api_name : Option String := none
  args : Option ArgsD := none
  action_state : Option ActionState := some ActionState.INITED
  contract : Option Contract := none
  impl_contract : Option Contract := none
  encode : Option Bool := some true
  error_message : Option String := none
  method_name : Option String := none
  libraries : Option Libs := none

/-- The `completed` tables (`Dict[str, Action]`; the key is `Option String`
because `workflow.completed[action.contract_name] = action` uses the optional
`contract_name` as key). -/
abbrev CompletedD := List (Option String × Action)

structure Workflow where
  app_name : String
  org : String
  blockchain : String
  actions : List Action
  storage : Option String := none
  completed : CompletedD := []

/-- The five abstract `Executor` operations (each a Go-style
`(value, error)` pair, here additionally threading the external state `σ`),
plus the two pure external helpers used by the concrete methods
`load_proxy_encoded` and `encode_calldata`. -/
structure Executor (σ : Type) where
  deploy_library : σ → (org : String) → (lib_name : Option String) →
    (code : Option String) → (blockchain : String) → (app_name : String) →
    (encode : Option Bool) → Option Contract × Option String × σ
  compile_contract : σ → (name : Option String) → (code : Option String) →
    (target_contract : Option String) → (libraries : Option Libs) →
    (encode : Option Bool) → Option Contract × Option String × σ
  deploy_contract : σ → (contract : Option Contract) →
    (api_name : Option String) → (blockchain : String) →
    (storage : Option String) → (args : Option ArgsD) →
    (app_name : String) → Option Contract × Option String × σ
  submit_transaction : σ → (api_name : Option String) →
    (method : Option String) → (args : Option ArgsD) → (wait : Bool) →
    Option String × Option String × σ
  set_proxy : σ → (workflow : Workflow) → (proxy_contract : Option Contract) →
    (impl_contract : Option Contract) → Option String × Option String × σ
  encodeABI : (abi : Option (List Meta)) → (fn_name : Option String) →
    (args : List Value) → String
  proxy_source : String

/-- Embedding of `Executor.load_proxy_encoded`: reads a fixed resource file, hence a pure
constant of the executor. -/
def loadProxyEncoded (ex : Executor σ) : String := ex.proxy_source

/-- Python `v.get(key, dflt)` on a metadata value: only mappings have `.get`
(anything else raises `AttributeError`). -/
def metaGetD (v : Meta) (key : String) (dflt : Meta) : Except PyErr Meta :=
  match v with
  | Meta.mMap m => Except.ok ((dget m key).getD dflt)
  | _ => Except.error (PyErr.attributeError "get")

/-- Python `v.get(key, dflt)` where the key is an `Optional[str]` (a `None` key never
matches the string keys of a metadata mapping). -/
def metaGetDOpt (v : Meta) (key : Option String) (dflt : Meta) :
    Except PyErr Meta :=
  match v with
  | Meta.mMap m => Except.ok ((key.bind (fun k => dget m k)).getD dflt)
  | _ => Except.error (PyErr.attributeError "get")

/-- Python `for param in params`: iterating a list yields its elements, iterating a
mapping yields its keys, iterating a string yields its characters; `None` is
not iterable. -/
def iterMeta : Meta → Except PyErr (List Meta)
  | Meta.mList xs => Except.ok xs
  | Meta.mMap m => Except.ok (m.map (fun p => Meta.mStr p.1))
  | Meta.mStr s => Except.ok (s.data.map (fun c => Meta.mStr (String.singleton c)))
  | Meta.mNone => Except.error (PyErr.typeError "not iterable")

/-- The `arg_list` accumulation loop of `Executor.encode_calldata`:
`arg_list.append(args.get(param.get("name")))` for each `param` in `params`.
`param.get("name")` requires `param` to be a mapping; the result is used as a
dict key (unhashable values raise); `args.get` requires `args` not `None`. -/
def argListOf : List Meta → Option ArgsD → Except PyErr (List Value)
  | [], _ => Except.ok []
  | p :: ps, args =>
    match p with
    | Meta.mMap m =>
      let key : Except PyErr (Option String) :=
        match dget m "name" with
        | none => Except.ok none
        | some (Meta.mStr s) => Except.ok (some s)
        | some Meta.mNone => Except.ok none
        | some _ => Except.error (PyErr.typeError "unhashable type")
      match key with
      | Except.error e => Except.error e
      | Except.ok k =>
        match args with
        | none => Except.error (PyErr.attributeError "get")
        | some a =>
          match argListOf ps args with
          | Except.error e => Except.error e
          | Except.ok rest => Except.ok (((dget a k).join) :: rest)
    | _ => Except.error (PyErr.attributeError "get")

/-- Embedding of `Executor.encode_calldata`: look up the ordered parameter list at
`metadata.contract.methods.<method_name>.params`, project `args` in that
order by each parameter's `name`, ABI-encode the invocation, and return
`{"_logic": deployed_contract.address, "_data": encoded}`. -/
def encode_calldata (ex : Executor σ) (deployed_contract : Contract)
    (method_name : Option String) (args : Option ArgsD) :
    Except PyErr ArgsD :=
  match deployed_contract.metadata with
  | none => Except.error (PyErr.attributeError "get")
  | some md =>
    match metaGetD md "contract" (Meta.mMap []) with
    | Except.error e => Except.error e
    | Except.ok c1 =>
      match metaGetD c1 "methods" (Meta.mMap []) with
      | Except.error e => Except.error e
      | Except.ok c2 =>
        match metaGetDOpt c2 method_name (Meta.mMap []) with
        | Except.error e => Except.error e
        | Except.ok c3 =>
          match metaGetD c3 "params" (Meta.mList []) with
          | Except.error e => Except.error e
          | Except.ok paramsV =>
            match iterMeta paramsV with
            | Except.error e => Except.error e
            | Except.ok params =>
              match argListOf params args with
              | Except.error e => Except.error e
              | Except.ok arg_list =>
                Except.ok [(some "_logic", deployed_contract.address),
                  (some "_data",
                    some (ex.encodeABI deployed_contract.abi method_name arg_list))]

/-- The error message produced by `Executor.dependencies` for an
unresolvable parent. -/
def depMsg (parent : String) : String :=
  "Dependency on contract " ++ parent ++ " cannot be resolved"

/-- The `for dep in dependencies` loop of `Executor.dependencies`, carrying
the accumulated `libs` mapping.  Each completed iteration re-assigns
`action.libraries = libs` exactly as the source does. -/
def depsLoop (ex : Executor σ) (completed : CompletedD) :
    Action → Libs → List Dependency →
    Except PyErr (Action × Bool × Option String)
  | action, _libs, [] => Except.ok (action, true, none)
  | action, libs, dep :: rest =>
    let parent := dep.parent
    match dget completed (some parent) with
    | none => Except.ok (action, false, some (depMsg parent))
    | some prev_deployment =>
      match prev_deployment.contract with
      | none => Except.ok (action, false, some (depMsg parent))
      | some prev_contract =>
        match dep.dependency_type with
        | DependencyType.LIBRARY =>
          let libs' := dinsert parent prev_contract.address libs
          depsLoop ex completed { action with libraries := some libs' }
            libs' rest
        | DependencyType.CONSTRUCTOR =>
          match action.args with
          | none =>
            -- `action.args[dep.target_arg] = ...` with `args` `None`
            Except.error
              (PyErr.typeError "NoneType object does not support item assignment")
          | some a =>
            depsLoop ex completed
              { action with
                args := some (dinsert dep.target_arg prev_contract.address a),
                libraries := some libs }
              libs rest
        | DependencyType.CONTRACT =>
          depsLoop ex completed
            { action with
              contract := some prev_contract,
              libraries := some libs }
            libs rest
        | DependencyType.IMPL =>
          match encode_calldata ex prev_contract dep.method_name
              dep.method_args with
          | Except.error e => Except.error e
          | Except.ok ar =>
            depsLoop ex completed
              { action with
                impl_contract := some prev_contract,
                code := some (loadProxyEncoded ex),
                encode := some false,
                contract_name := some "SIMBAProxy",
                args := some ar,
                libraries := some libs }
              libs rest

/-- Embedding of `Executor.dependencies(action, completed)`: the dependency resolver. -/
def dependencies (ex : Executor σ) (action : Action) (completed : CompletedD) :
    Except PyErr (Action × Bool × Option String) :=
  if action.action_state = some ActionState.COMPLETED then
    Except.ok (action, false, none)
  else
    depsLoop ex completed action [] (action.dependencies.getD [])

/-- Embedding of `Executor.handle_methodcall`.  `action.contract.api_name` raises
`AttributeError` when `action.contract` is `None`. -/
def handle_methodcall (ex : Executor σ) (action : Action) (_workflow : Workflow)
    (s : σ) : Except PyErr (Action × Bool × σ) :=
  match action.contract with
  | none => Except.error (PyErr.attributeError "api_name")
  | some c =>
    let (_txn_id, err, s₁) :=
      ex.submit_transaction s c.api_name action.method_name action.args true
    if strTruthy err then
      Except.ok ({ action with
        action_state := some ActionState.FAILED_METHOD_CALL,
        error_message := err }, false, s₁)
    else
      Except.ok ({ action with
        action_state := some ActionState.COMPLETED,
        error_message := none }, true, s₁)

/-- Embedding of `Executor.handle_deploy_library`.  When a contract is already attached
the source records `INVALID_STATE` and still proceeds to deploy. -/
def handle_deploy_library (ex : Executor σ) (action : Action)
    (workflow : Workflow) (s : σ) : Except PyErr (Action × Bool × σ) :=
  let action :=
    if action.contract.isSome then
      { action with
        action_state := some ActionState.INVALID_STATE,
        error_message := some "Contract already exists" }
    else action
  let (contract, err, s₁) :=
    ex.deploy_library s workflow.org action.contract_name action.code
      workflow.blockchain workflow.app_name action.encode
  if strTruthy err then
    Except.ok ({ action with
      action_state := some ActionState.FAILED_COMPLETE,
      error_message := err }, false, s₁)
  else
    Except.ok ({ action with
      contract := contract,
      action_state := some ActionState.COMPLETED,
      error_message := none }, true, s₁)

/-- The compile-phase entry condition of `Executor.handle_deploy_contract`:
`not contract or not contract.design_id or
 action.action_state == ActionState.FAILED_COMPILE`. -/
def needsCompile (action : Action) : Bool :=
  match action.contract with
  | none => true
  | some c =>
    !(strTruthy c.design_id)
      || action.action_state == some ActionState.FAILED_COMPILE

/-- The deploy phase of `Executor.handle_deploy_contract` (the tail of the
source function, operating on the local variable `contract`).  On error the
source assigns `action.error_message = err` and then immediately
`action.error_message = None`, so the recorded message is `None`. -/
def deployPhase (ex : Executor σ) (action : Action)
    (contract : Option Contract) (workflow : Workflow) (s : σ) :
    Except PyErr (Action × Bool × σ) :=
  let (contract₁, err, s₁) :=
    ex.deploy_contract s contract action.api_name workflow.blockchain
      workflow.storage action.args workflow.app_name
  if strTruthy err then
    Except.ok ({ action with
      action_state := some ActionState.FAILED_COMPLETE,
      error_message := none }, false, s₁)
  else
    Except.ok ({ action with
      contract := contract₁,
      action_state := some ActionState.COMPLETED }, true, s₁)

/-- Embedding of `Executor.handle_deploy_contract`: compile when `needsCompile`, then
deploy (`deployPhase`). -/
def handle_deploy_contract (ex : Executor σ) (action : Action)
    (workflow : Workflow) (s : σ) : Except PyErr (Action × Bool × σ) :=
  if needsCompile action then
    let (contract, err, s₁) :=
      ex.compile_contract s action.contract_name action.code
        action.contract_name action.libraries action.encode
    if strTruthy err then
      Except.ok ({ action with
        action_state := some ActionState.FAILED_COMPILE,
        error_message := err }, false, s₁)
    else
      deployPhase ex
        { action with
          contract := contract,
          action_state := some ActionState.COMPILED,
          error_message := none }
        contract workflow s₁
  else
    deployPhase ex action action.contract workflow s

/-- The `set_proxy` tail of `Executor.handle_deploy_proxy`.  On success the
source returns `(action, True)` without changing `action_state`. -/
def setProxyPhase (ex : Executor σ) (action : Action) (workflow : Workflow)
    (s : σ) : Except PyErr (Action × Bool × σ) :=
  let contract := action.contract
  let (_msg, err, s₁) :=
    ex.set_proxy s workflow contract action.impl_contract
  if strTruthy err then
    Except.ok ({ action with
      action_state := some ActionState.FAILED_SET_PROXY,
      error_message := err }, false, s₁)
  else
    Except.ok (action, true, s₁)

/-- Embedding of `Executor.handle_deploy_proxy`: unless resuming from
`FAILED_SET_PROXY`, delegate to `handle_deploy_contract` first; then call
`set_proxy`. -/
def handle_deploy_proxy (ex : Executor σ) (action : Action)
    (workflow : Workflow) (s : σ) : Except PyErr (Action × Bool × σ) :=
  if action.action_state = some ActionState.FAILED_SET_PROXY then
    setProxyPhase ex action workflow s
  else
    match handle_deploy_contract ex action workflow s with
    | Except.error e => Except.error e
    | Except.ok (action₁, carry_on, s₁) =>
      if !carry_on then Except.ok (action₁, false, s₁)
      else setProxyPhase ex action₁ workflow s₁

/-- The handler dispatch of the `Executor.deploy` loop
(the `if/elif` chain on `action.action_type`). -/
def dispatchHandler (ex : Executor σ) (action : Action) (workflow : Workflow)
    (s : σ) : Except PyErr (Action × Bool × σ) :=
  match action.action_type with
  | ActionType.DEPLOY_LIBRARY => handle_deploy_library ex action workflow s
  | ActionType.METHOD_CALL => handle_methodcall ex action workflow s
  | ActionType.DEPLOY_CONTRACT => handle_deploy_contract ex action workflow s
  | ActionType.DEPLOY_PROXY => handle_deploy_proxy ex action workflow s

/-- The `for i, action in enumerate(workflow.actions)` loop of
`Executor.deploy`.  `done` is the already-traversed prefix (the loop mutates
actions in place, so handlers observe the full list with mutations applied),
`count` and `comp` are the source's `count` and `workflow.completed`.
The result is the full (mutated) action list, the final `count`, the final
`completed` table and the executor state. -/
def deployGo (ex : Executor σ) (w0 : Workflow) :
    (done : List Action) → (todo : List Action) → (count : Nat) →
    (comp : CompletedD) → σ →
    Except PyErr (List Action × Nat × CompletedD × σ)
  | done, [], count, comp, s => Except.ok (done, count, comp, s)
  | done, action :: rest, count, comp, s =>
    match dependencies ex action comp with
    | Except.error e => Except.error e
    | Except.ok (action₁, carry_on, err) =>
      if strTruthy err then
        Except.ok (done ++
          ({ action₁ with
             action_state := some ActionState.FAILED_DEPENDENCIES,
             error_message := err } :: rest), count, comp, s)
      else
        let action₂ := { action₁ with error_message := none }
        if !carry_on then
          deployGo ex w0 (done ++ [action₂]) rest count comp s
        else
          let wfView := { w0 with
            actions := done ++ action₂ :: rest, completed := comp }
          match dispatchHandler ex action₂ wfView s with
          | Except.error e => Except.error e
          | Except.ok (action₃, carry₃, s₃) =>
            if !carry₃ then
              Except.ok (done ++ (action₃ :: rest), count, comp, s₃)
            else
              deployGo ex w0 (done ++ [action₃]) rest (count + 1)
                (dinsert action₃.contract_name action₃ comp) s₃

/-- Embedding of `Executor.deploy(workflow)`: run the loop, then
`workflow.actions = workflow.actions[count:]`. -/
def deploy (ex : Executor σ) (workflow : Workflow) (s : σ) :
    Except PyErr (Workflow × σ) :=
  match deployGo ex workflow [] workflow.actions 0 workflow.completed s with
  | Except.error e => Except.error e
  | Except.ok (full, count, comp, s₁) =>
    Except.ok ({ workflow with
      actions := full.drop count, completed := comp }, s₁)

/-- Truthiness of a field value in `Action.check_fields`
(`if not values.get(f)`).  Only the four field names that
`Action.check_by_type` actually passes are needed. -/
def fieldTruthy (a : Action) (f : String) : Bool :=
  if f = "contract_name" then strTruthy a.contract_name
  else if f = "code" then strTruthy a.code
  else if f = "api_name" then strTruthy a.api_name
  else if f = "method_name" then strTruthy a.method_name
  else false

/-- Embedding of `Action.check_by_type`: the per-action root validator
(`True` = accepted, `False` = `ValueError` raised). -/
def check_by_type (a : Action) : Bool :=
  match a.action_type with
  | ActionType.DEPLOY_LIBRARY =>
    fieldTruthy a "contract_name" && fieldTruthy a "code"
  | ActionType.DEPLOY_CONTRACT =>
    fieldTruthy a "contract_name" && fieldTruthy a "code"
      && fieldTruthy a "api_name"
  | ActionType.METHOD_CALL =>
    fieldTruthy a "method_name" && fieldTruthy a "api_name"
  | ActionType.DEPLOY_PROXY => fieldTruthy a "api_name"

/-- Truthiness of `action.dependencies` (`None` and `[]` are falsy). -/
def depsTruthy (a : Action) : Bool := !(a.dependencies.getD []).isEmpty

/-- The per-action loop of the `Workflow.check` root validator, carrying the
`previous` list of earlier `contract_name`s and the index `i`
(`True` = accepted so far, `False` = `ValueError` raised). -/
def checkLoop : (previous : List (Option String)) → (i : Nat) →
    List Action → Bool
  | _previous, _i, [] => true
  | previous, i, action :: rest =>
    if i = 0 && depsTruthy action then false
    else
      let deps := action.dependencies.getD []
      if !(deps.all (fun dep =>
          !(strTruthy (some dep.parent)) || previous.contains (some dep.parent)))
      then false
      else
        let got_impl_dep :=
          deps.any (fun dep => dep.dependency_type == DependencyType.IMPL)
        if action.action_type == ActionType.DEPLOY_PROXY && !got_impl_dep then
          false
        else checkLoop (previous ++ [action.contract_name]) (i + 1) rest

/-- Embedding of `Workflow.check`: reject an empty plan, then run `checkLoop`. -/
def workflowCheck (actions : List Action) : Bool :=
  !actions.isEmpty && checkLoop [] 0 actions

/-- The resolvability check `Executor.dependencies` performs for one parent:
`completed.get(parent)` exists and carries a `contract`. -/
def resolvable (completed : CompletedD) (parent : String) : Bool :=
  match dget completed (some parent) with
  | none => false
  | some prev => prev.contract.isSome

/-- Modelled from the spec (§4.5 post-condition): the leading `count`
elements are removed from `actions` and appear in `completed` keyed by their
(possibly resolver-injected) `contract_name`; the next element of `actions`,
if any, is the first failed or still-pending action carrying the most recent
`action_state` and `error_message`.  This reference driver removes each
action from the plan exactly when its handler returns `carry_on = true`
(inserting it into `completed`), and stops leaving the mutated failed action
at the head.  Handlers observe the same workflow view as in `deployGo`. -/
def deploySpecGo (ex : Executor σ) (w0 : Workflow) :
    (done : List Action) → (todo : List Action) → (comp : CompletedD) → σ →
    Except PyErr (List Action × CompletedD × σ)
  | _done, [], comp, s => Except.ok ([], comp, s)
  | done, action :: rest, comp, s =>
    match dependencies ex action comp with
    | Except.error e => Except.error e
    | Except.ok (action₁, carry_on, err) =>
      if strTruthy err then
        Except.ok (({ action₁ with
          action_state := some ActionState.FAILED_DEPENDENCIES,
          error_message := err } :: rest), comp, s)
      else
        let action₂ := { action₁ with error_message := none }
        if !carry_on then
          deploySpecGo ex w0 (done ++ [action₂]) rest comp s
        else
          let wfView := { w0 with
            actions := done ++ action₂ :: rest, completed := comp }
          match dispatchHandler ex action₂ wfView s with
          | Except.error e => Except.error e
          | Except.ok (action₃, carry₃, s₃) =>
            if !carry₃ then
              Except.ok ((action₃ :: rest), comp, s₃)
            else
              deploySpecGo ex w0 (done ++ [action₃]) rest
                (dinsert action₃.contract_name action₃ comp) s₃

/-- Modelled from the spec: `deploy` as described by the §4.5
post-condition, wrapping `deploySpecGo`. -/
def deploySpec (ex : Executor σ) (workflow : Workflow) (s : σ) :
    Except PyErr (Workflow × σ) :=
  match deploySpecGo ex workflow [] workflow.actions workflow.completed s with
  | Except.error e => Except.error e
  | Except.ok (acts, comp, s₁) =>
    Except.ok ({ workflow with actions := acts, completed := comp }, s₁)

/-- Names of the five abstract executor operations, for call tracing. -/
inductive CallTag where
  | deployLib
  | compile
  | deployContract
  | submitTxn
  | setProxy
deriving DecidableEq, Repr

/-- Instrument an executor so that its state also records, in order, which
abstract operations were invoked.  The pure helpers are unchanged. -/
def withLog (ex : Executor σ) : Executor (σ × List CallTag) where
  deploy_library := fun s org lib code bc app enc =>
    let r := ex.deploy_library s.1 org lib code bc app enc
    (r.1, r.2.1, (r.2.2, s.2 ++ [CallTag.deployLib]))
  compile_contract := fun s n c t l e =>
    let r := ex.compile_contract s.1 n c t l e
    (r.1, r.2.1, (r.2.2, s.2 ++ [CallTag.compile]))
  deploy_contract := fun s c a b st ar ap =>
    let r := ex.deploy_contract s.1 c a b st ar ap
    (r.1, r.2.1, (r.2.2, s.2 ++ [CallTag.deployContract]))
  submit_transaction := fun s a m ar w =>
    let r := ex.submit_transaction s.1 a m ar w
    (r.1, r.2.1, (r.2.2, s.2 ++ [CallTag.submitTxn]))
  set_proxy := fun s w p i =>
    let r := ex.set_proxy s.1 w p i
    (r.1, r.2.1, (r.2.2, s.2 ++ [CallTag.setProxy]))
  encodeABI := ex.encodeABI
  proxy_source := ex.proxy_source

/-- The call trace of an instrumented handler run (empty on a crash). -/
def callTags (r : Except PyErr (Action × Bool × σ × List CallTag)) :
    List CallTag :=
  match r with
  | Except.error _ => []
  | Except.ok (_, _, _, l) => l

/-- A deterministic executor whose operations all succeed. -/
def trivialExec : Executor Unit where
  deploy_library := fun s _ _ _ _ _ _ =>
    (some { address := some "0xL", id := some "L1" }, none, s)
  compile_contract := fun s _ _ _ _ _ =>
    (some { design_id := some "D" }, none, s)
  deploy_contract := fun s _ _ _ _ _ _ =>
    (some { address := some "0xC", id := some "C1" }, none, s)
  submit_transaction := fun s _ _ _ _ => (some "0xT", none, s)
  set_proxy := fun s _ _ _ => (some "OK", none, s)
  encodeABI := fun _ _ _ => "0xdata"
  proxy_source := "proxysrc"

/-- An executor whose `deploy_contract` fails with `"boom"` and whose other
operations succeed. -/
def exDeployFail : Executor Unit where
  deploy_library := fun s _ _ _ _ _ _ => (some {}, none, s)
  compile_contract := fun s _ _ _ _ _ =>
    (some { design_id := some "D" }, none, s)
  deploy_contract := fun s _ _ _ _ _ _ => (none, some "boom", s)
  submit_transaction := fun s _ _ _ _ => (some "0xT", none, s)
  set_proxy := fun s _ _ _ => (some "OK", none, s)
  encodeABI := fun _ _ _ => "0xdata"
  proxy_source := "proxysrc"

/-- An empty workflow shell used when a handler only needs the scope
identifiers. -/
def wf0 : Workflow :=
  { app_name := "app", org := "org", blockchain := "chain", actions := [] }

/-- A completed `METHOD_CALL` action with an attached contract record. -/
def parentAct : Action :=
  { action_type := ActionType.METHOD_CALL,
    contract := some { address := some "0xP" } }

/-- A `METHOD_CALL` action with a CONSTRUCTOR dependency on `"P"` whose
`args` mapping is absent. -/
def aC7 : Action :=
  { action_type := ActionType.METHOD_CALL,
    method_name := some "m",
    api_name := some "a",
    dependencies := some [{ dependency_type := DependencyType.CONSTRUCTOR,
                            parent := "P",
                            target_arg := some "addr" }] }

/-- A `METHOD_CALL` action with no contract record attached. -/
def mAct : Action :=
  { action_type := ActionType.METHOD_CALL,
    method_name := some "m",
    api_name := some "a" }

/-- Workflow whose only action is a `METHOD_CALL` without a contract. -/
def wfC6a : Workflow := { wf0 with actions := [mAct] }

/-- A completed parent for the `"Q"` dependency of `kAct`. -/
def qAct : Action :=
  { action_type := ActionType.DEPLOY_CONTRACT,
    contract := some { address := some "0xQ" } }

/-- A `METHOD_CALL` action with a CONSTRUCTOR dependency on `"Q"` and
absent `args`. -/
def kAct : Action :=
  { action_type := ActionType.METHOD_CALL,
    method_name := some "k",
    api_name := some "b",
    contract := some { api_name := some "b-api" },
    dependencies := some [{ dependency_type := DependencyType.CONSTRUCTOR,
                            parent := "Q",
                            target_arg := some "owner" }] }

/-- Workflow whose only action is `kAct`, with `"Q"` already completed. -/
def wfC6b : Workflow :=
  { wf0 with actions := [kAct], completed := [(some "Q", qAct)] }

/-- A `DEPLOY_PROXY` action resuming from `FAILED_SET_PROXY` (a retry pass:
contract and impl contract already attached). -/
def aC4 : Action :=
  { action_type := ActionType.DEPLOY_PROXY,
    contract_name := some "SIMBAProxy",
    api_name := some "px",
    contract := some { id := some "1" },
    impl_contract := some { id := some "2" },
    action_state := some ActionState.FAILED_SET_PROXY,
    error_message := some "previous failure" }

/-- The action `aC4` after the driver clears `error_message` on dependency success. -/
def aC4r : Action := { aC4 with error_message := none }

/-- Workflow whose only action is the proxy retry `aC4`. -/
def wfC4 : Workflow := { wf0 with actions := [aC4] }

/-- A `DEPLOY_CONTRACT` action with a usable `design_id` (compile phase is
skipped). -/
def aC2 : Action :=
  { action_type := ActionType.DEPLOY_CONTRACT,
    contract_name := some "C",
    code := some "src",
    api_name := some "api",
    contract := some { design_id := some "D1" } }

/-- A `DEPLOY_CONTRACT` action whose contract has an *empty-string*
`design_id` (present but falsy). -/
def aC3 : Action :=
  { action_type := ActionType.DEPLOY_CONTRACT,
    contract_name := some "C",
    code := some "src",
    api_name := some "api",
    contract := some { design_id := some "" } }

/-- An already-`COMPLETED` action sitting at the head of a plan. -/
def aDone : Action :=
  { action_type := ActionType.METHOD_CALL,
    contract_name := some "A",
    method_name := some "m",
    api_name := some "a",
    action_state := some ActionState.COMPLETED }

/-- A pending `METHOD_CALL` action (with contract attached) named `"B"`. -/
def bAct : Action :=
  { action_type := ActionType.METHOD_CALL,
    contract_name := some "B",
    method_name := some "m",
    api_name := some "b",
    contract := some { api_name := some "b-api" } }

/-- The action `bAct` as mutated by a successful pass (error cleared, `COMPLETED`). -/
def bDone : Action :=
  { bAct with
    action_state := some ActionState.COMPLETED,
    error_message := none }

/-- Workflow `[aDone, bAct]`: a COMPLETED action ahead of a pending one. -/
def wfC1 : Workflow := { wf0 with actions := [aDone, bAct] }

/-- A small all-pending workflow for the C1 witness. -/
def wfC1w : Workflow :=
  { wf0 with actions :=
      [{ action_type := ActionType.DEPLOY_LIBRARY,
         contract_name := some "Lib1",
         code := some "libsrc" }] }

/-- The implementation contract adopted by an IMPL dependency. -/
def pcW : Contract := { address := some "0xI", metadata := some (Meta.mMap []) }

/-- The completed parent action carrying `pcW`. -/
def prevW : Action :=
  { action_type := ActionType.DEPLOY_CONTRACT,
    contract := some pcW }

/-- An IMPL dependency on `"Impl"` with an `initialize` call. -/
def dW : Dependency :=
  { dependency_type := DependencyType.IMPL,
    parent := "Impl",
    method_name := some "initialize",
    method_args := some [] }

/-- A `DEPLOY_PROXY` action with the single IMPL dependency `dW`. -/
def aW : Action :=
  { action_type := ActionType.DEPLOY_PROXY,
    api_name := some "px",
    dependencies := some [dW] }

/-- The call-data mapping `encode_calldata` produces for `pcW` under
`trivialExec`. -/
def arW : ArgsD := [(some "_logic", some "0xI"), (some "_data", some "0xdata")]

/-- An action with no dependencies but a pre-seeded contract and a non-empty
`libraries` mapping. -/
def preSeeded : Action :=
  { action_type := ActionType.METHOD_CALL,
    method_name := some "m",
    api_name := some "a",
    contract := some { address := some "0x9" },
    libraries := some [("X", some "0x9")] }

/-- A dependency with a non-empty, unresolvable parent `"Zed"`. -/
def dZed : Dependency := { dependency_type := DependencyType.LIBRARY, parent := "Zed" }

/-- A `DEPLOY_CONTRACT` action depending on the unresolvable `"Zed"`. -/
def aC5 : Action :=
  { action_type := ActionType.DEPLOY_CONTRACT,
    contract_name := some "C5",
    code := some "src",
    api_name := some "api",
    dependencies := some [dZed] }

/-- Workflow whose first action is `aC5` and whose `completed` is empty. -/
def wfC5 : Workflow := { wf0 with actions := [aC5] }

/-- A valid `DEPLOY_LIBRARY` action named `"L"`. -/
def libAct : Action :=
  { action_type := ActionType.DEPLOY_LIBRARY,
    contract_name := some "L",
    code := some "c" }

/-- A dependency whose `parent` is the empty string (falsy, so the
validator's parent check is skipped). -/
def dEmptyParent : Dependency :=
  { dependency_type := DependencyType.LIBRARY, parent := "" }

/-- A `METHOD_CALL` action carrying `dEmptyParent`. -/
def mcEmptyParent : Action :=
  { action_type := ActionType.METHOD_CALL,
    method_name := some "m",
    api_name := some "a",
    dependencies := some [dEmptyParent] }

/-- A dependency on `"L"` used by the C8 witness. -/
def dOnL : Dependency := { dependency_type := DependencyType.LIBRARY, parent := "L" }

/-- A `DEPLOY_CONTRACT` action depending on `"L"`. -/
def cOnL : Action :=
  { action_type := ActionType.DEPLOY_CONTRACT,
    contract_name := some "C",
    code := some "csrc",
    api_name := some "api",
    dependencies := some [dOnL] }

/-- C10: for an action not in state `COMPLETED` whose `dependencies` list is
absent or empty, the resolver returns `(true, None)` and leaves every field
of the action unchanged (the returned action is the input action itself, so
in particular a pre-seeded `contract` and the prior `libraries` value are
preserved). -/
theorem C10_empty_deps_frame {σ : Type} (ex : Executor σ) (a : Action)
    (completed : CompletedD)
    (h1 : a.action_state ≠ some ActionState.COMPLETED)
    (h2 : a.dependencies = none ∨ a.dependencies = some []) :
    dependencies ex a completed = Except.ok (a, true, none) := by
  unfold dependencies
  rw [if_neg h1]
  rcases h2 with h | h <;> rw [h] <;> rfl

/-- Witness for C10 at a concrete action with a pre-seeded contract record
and a non-empty prior `libraries` mapping. -/
theorem C10_empty_deps_frame_witness :
    dependencies trivialExec preSeeded [] = Except.ok (preSeeded, true, none)
    ∧ preSeeded.contract = some { address := some "0x9" }
    ∧ preSeeded.libraries = some [("X", some "0x9")] :=
  ⟨C10_empty_deps_frame trivialExec preSeeded [] (by decide) (Or.inl rfl),
    rfl, rfl⟩

/-- C2 (code behaviour at the failing input): when `deploy_contract` errors
with `"boom"`, the handler sets `FAILED_COMPLETE` and returns
`(action, false)` as the claim says, but the recorded `error_message` is
`None`: the source's `action.error_message = err` is immediately overwritten
by `action.error_message = None`. -/
theorem C2_deploy_error_discarded :
    handle_deploy_contract exDeployFail aC2 wf0 () =
      Except.ok ({ aC2 with
        action_state := some ActionState.FAILED_COMPLETE,
        error_message := none }, false, ())
    ∧ (exDeployFail.deploy_contract () aC2.contract aC2.api_name
        wf0.blockchain wf0.storage aC2.args wf0.app_name).2.1 = some "boom" :=
  ⟨rfl, rfl⟩

/-- C7 (code behaviour at the failing input): resolving a CONSTRUCTOR
dependency whose parent resolves fine but whose action has no `args` mapping
raises `TypeError` (`action.args[dep.target_arg] = ...` on `None`) instead
of allocating an empty mapping. -/
theorem C7_constructor_args_none_crash :
    dependencies trivialExec aC7 [(some "P", parentAct)] =
      Except.error
        (PyErr.typeError "NoneType object does not support item assignment")
    ∧ resolvable [(some "P", parentAct)] "P" = true :=
  ⟨rfl, rfl⟩

/-- C6 (code behaviour at the failing inputs): `deploy` raises across the
Driver boundary both for a METHOD_CALL action whose contract record is
absent (`action.contract.api_name` on `None`) and for a CONSTRUCTOR
dependency resolved against an action whose `args` mapping is absent. -/
theorem C6_exceptions_escape_driver :
    deploy trivialExec wfC6a () = Except.error (PyErr.attributeError "api_name")
    ∧ deploy trivialExec wfC6b () =
        Except.error
          (PyErr.typeError "NoneType object does not support item assignment") :=
  ⟨rfl, rfl⟩

/-- C4 (code behaviour at the failing input): a `DEPLOY_PROXY` retry entered
in state `FAILED_SET_PROXY` whose `set_proxy` call succeeds returns
`carry_on = true` (skipping compile/deploy) and the Driver promotes it into
`completed`, but its `action_state` is still `FAILED_SET_PROXY`, not
`COMPLETED`. -/
theorem C4_retry_not_completed :
    handle_deploy_proxy trivialExec aC4r
        { wfC4 with actions := [aC4r], completed := [] } () =
      Except.ok (aC4r, true, ())
    ∧ aC4r.action_state = some ActionState.FAILED_SET_PROXY
    ∧ deploy trivialExec wfC4 () =
        Except.ok ({ wfC4 with
          actions := [],
          completed := [(some "SIMBAProxy", aC4r)] }, ()) :=
  ⟨rfl, rfl, rfl⟩

/-- Any successful `encode_calldata` result is a two-entry mapping with
`"_logic"` bound to the deployed contract's address and `"_data"` bound to
the encoded initializer. -/
theorem encode_calldata_shape {σ : Type} (ex : Executor σ) (pc : Contract)
    (mn : Option String) (ma : Option ArgsD) (ar : ArgsD)
    (h : encode_calldata ex pc mn ma = Except.ok ar) :
    ∃ enc, ar = [(some "_logic", pc.address), (some "_data", some enc)] := by
  unfold encode_calldata at h
  repeat' split at h
  all_goals try exact Except.noConfusion h
  injection h with h
  exact ⟨_, h.symm⟩

/-- C9: resolving an IMPL dependency sets `impl_contract` to the parent's
contract, `code` to the loaded proxy asset, `encode` to `false`,
`contract_name` to `"SIMBAProxy"` and `args` to the call-data encoding
`{"_logic": impl address, "_data": encoded initializer}` of
`(impl_contract, d.method_name, d.method_args)`, overwriting any prior
values of these fields (the result is a record update of the input action,
whatever its prior `args`, `code`, `contract_name` and `encode` were). -/
theorem C9_impl_rewrite {σ : Type} (ex : Executor σ) (a : Action)
    (completed : CompletedD) (d : Dependency) (prev : Action) (pc : Contract)
    (ar : ArgsD)
    (h1 : a.action_state ≠ some ActionState.COMPLETED)
    (h2 : a.dependencies = some [d])
    (h3 : d.dependency_type = DependencyType.IMPL)
    (h4 : dget completed (some d.parent) = some prev)
    (h5 : prev.contract = some pc)
    (h6 : encode_calldata ex pc d.method_name d.method_args = Except.ok ar) :
    dependencies ex a completed = Except.ok ({ a with
      impl_contract := some pc,
      code := some (loadProxyEncoded ex),
      encode := some false,
      contract_name := some "SIMBAProxy",
      args := some ar,
      libraries := some [] }, true, none)
    ∧ ∃ enc, ar = [(some "_logic", pc.address), (some "_data", some enc)] := by
  refine ⟨?_, encode_calldata_shape ex pc d.method_name d.method_args ar h6⟩
  unfold dependencies
  rw [if_neg h1, h2]
  show depsLoop ex completed a [] [d] = _
  simp only [depsLoop, h2, h3, h4, h5, h6]

/-- Witness for C9 at a concrete proxy action, parent and metadata. -/
theorem C9_impl_rewrite_witness :
    dependencies trivialExec aW [(some "Impl", prevW)] =
      Except.ok ({ aW with
        impl_contract := some pcW,
        code := some (loadProxyEncoded trivialExec),
        encode := some false,
        contract_name := some "SIMBAProxy",
        args := some arW,
        libraries := some [] }, true, none)
    ∧ ∃ enc, arW = [(some "_logic", pcW.address), (some "_data", some enc)] :=
  C9_impl_rewrite trivialExec aW [(some "Impl", prevW)] dW prevW pcW arW
    (by decide) rfl rfl rfl rfl rfl

/-- Under the instrumented executor, the deploy phase appends exactly one
`deployContract` tag to the log, whether it fails or succeeds. -/
theorem callTags_deployPhase {σ : Type} (ex : Executor σ) (a : Action)
    (c : Option Contract) (wf : Workflow) (s : σ) (l : List CallTag) :
    callTags (deployPhase (withLog ex) a c wf (s, l)) =
      l ++ [CallTag.deployContract] := by
  unfold deployPhase withLog callTags
  by_cases ht : strTruthy (ex.deploy_contract s c a.api_name wf.blockchain
      wf.storage a.args wf.app_name).2.1 = true <;>
    simp [ht]

/-- Under the instrumented executor, a compile-phase entry logs `compile`
first: the trace is `[compile]` (compile failed) or
`[compile, deployContract]`. -/
theorem callTags_compile_entered {σ : Type} (ex : Executor σ) (a : Action)
    (wf : Workflow) (s : σ) (hn : needsCompile a = true) :
    callTags (handle_deploy_contract (withLog ex) a wf (s, [])) = [CallTag.compile]
    ∨ callTags (handle_deploy_contract (withLog ex) a wf (s, [])) =
        [CallTag.compile, CallTag.deployContract] := by
  unfold handle_deploy_contract
  rw [hn]
  simp only [if_true]
  by_cases ht : strTruthy (ex.compile_contract s a.contract_name a.code
      a.contract_name a.libraries a.encode).2.1 = true
  · left
    simp [withLog, callTags, ht]
  · right
    have := callTags_deployPhase ex
      { a with
        contract := (ex.compile_contract s a.contract_name a.code
          a.contract_name a.libraries a.encode).1,
        action_state := some ActionState.COMPILED,
        error_message := none }
      (ex.compile_contract s a.contract_name a.code a.contract_name
        a.libraries a.encode).1
      wf
      (ex.compile_contract s a.contract_name a.code a.contract_name
        a.libraries a.encode).2.2
      [CallTag.compile]
    simp only [withLog, ht, Bool.false_eq_true, if_false]
    simpa using this

/-- The source's compile-phase entry condition, spelled out as the
disjunction used by claim C3 (with "absent" refined to "absent or empty"). -/
theorem needsCompile_iff (a : Action) :
    needsCompile a = true ↔
      (a.contract = none
        ∨ (∃ c, a.contract = some c ∧ (c.design_id = none ∨ c.design_id = some ""))
        ∨ a.action_state = some ActionState.FAILED_COMPILE) := by
  unfold needsCompile
  cases hc : a.contract with
  | none => simp
  | some c =>
    cases hd : c.design_id with
    | none => simp [strTruthy, hd]
    | some t =>
      by_cases ht : t = ""
      · subst ht
        simp [strTruthy, hd]
      · simp [strTruthy, hd, ht]

/-- C3 (amended): `handle_deploy_contract` calls `compile_contract` if and
only if the contract is absent, its `design_id` is absent *or empty*, or the
action is in state `FAILED_COMPILE`; otherwise it calls `deploy_contract`
directly and only it.  Stated over the call trace of an instrumented
executor. -/
theorem C3_compile_entry {σ : Type} (ex : Executor σ) (s : σ) (a : Action)
    (wf : Workflow) :
    (CallTag.compile ∈ callTags (handle_deploy_contract (withLog ex) a wf (s, []))
      ↔ (a.contract = none
          ∨ (∃ c, a.contract = some c ∧ (c.design_id = none ∨ c.design_id = some ""))
          ∨ a.action_state = some ActionState.FAILED_COMPILE))
    ∧ (callTags (handle_deploy_contract (withLog ex) a wf (s, [])) = [CallTag.deployContract]
      ↔ ¬(a.contract = none
          ∨ (∃ c, a.contract = some c ∧ (c.design_id = none ∨ c.design_id = some ""))
          ∨ a.action_state = some ActionState.FAILED_COMPILE)) := by
  rw [← needsCompile_iff]
  cases hn : needsCompile a with
  | false =>
    have hlog : callTags (handle_deploy_contract (withLog ex) a wf (s, [])) =
        [CallTag.deployContract] := by
      unfold handle_deploy_contract
      rw [hn]
      simp only [Bool.false_eq_true, if_false]
      rw [callTags_deployPhase]
      rfl
    rw [hlog]
    simp
  | true =>
    have hlog : CallTag.compile ∈
        callTags (handle_deploy_contract (withLog ex) a wf (s, [])) := by
      rcases callTags_compile_entered ex a wf s hn with h | h <;> rw [h] <;> simp
    have hne : callTags (handle_deploy_contract (withLog ex) a wf (s, [])) ≠
        [CallTag.deployContract] := by
      rcases callTags_compile_entered ex a wf s hn with h | h <;> rw [h] <;> simp
    constructor
    · simp [hlog]
    · simp [hne]

/-- Counterexample to C3 as stated: a `DEPLOY_CONTRACT` action whose
contract is present, whose `design_id` is present (the empty string, hence
not "absent"), and whose state is not `FAILED_COMPILE`, yet
`compile_contract` is called. -/
theorem C3_counterexample :
    CallTag.compile ∈
      callTags (handle_deploy_contract (withLog trivialExec) aC3 wf0 ((), []))
    ∧ aC3.contract = some { design_id := some "" }
    ∧ (some "" : Option String) ≠ none
    ∧ aC3.action_state = some ActionState.INITED
    ∧ aC3.action_state ≠ some ActionState.FAILED_COMPILE := by
  refine ⟨by decide, rfl, by simp, rfl, by decide⟩

/-- If the first `k` dependencies are resolvable but the `k`-th is not (its
parent is missing from `completed` or has no contract record), then any
non-crashing run of the dependency loop returns `carry_on = false` with the
message naming that parent. -/
theorem depsLoop_unresolved {σ : Type} (ex : Executor σ)
    (completed : CompletedD) :
    ∀ (ds : List Dependency) (k : Nat) (a : Action) (libs : Libs)
      (hk : k < ds.length),
      (∀ j (hj : j < k),
        resolvable completed (ds.get ⟨j, hj.trans hk⟩).parent = true) →
      resolvable completed (ds.get ⟨k, hk⟩).parent = false →
      ∀ r, depsLoop ex completed a libs ds = Except.ok r →
        r.2.1 = false ∧ r.2.2 = some (depMsg (ds.get ⟨k, hk⟩).parent) := by
  intro ds
  induction ds with
  | nil =>
    intro k a libs hk
    exact absurd hk (Nat.not_lt_zero k)
  | cons d ds ih =>
    intro k a libs hk hpre hbad r hr
    cases k with
    | zero =>
      simp only [List.get] at hbad ⊢
      unfold resolvable at hbad
      cases hg : dget completed (some d.parent) with
      | none =>
        simp only [depsLoop, hg] at hr
        injection hr with hr
        rw [← hr]
        exact ⟨rfl, rfl⟩
      | some prev =>
        rw [hg] at hbad
        simp only [] at hbad
        cases hc : prev.contract with
        | none =>
          simp only [depsLoop, hg, hc] at hr
          injection hr with hr
          rw [← hr]
          exact ⟨rfl, rfl⟩
        | some pc =>
          rw [hc] at hbad
          simp at hbad
    | succ k' =>
      have h0 : resolvable completed d.parent = true := by
        have := hpre 0 (Nat.succ_pos k')
        simpa using this
      have hk' : k' < ds.length := Nat.lt_of_succ_lt_succ hk
      have hpre' : ∀ j (hj : j < k'),
          resolvable completed (ds.get ⟨j, hj.trans hk'⟩).parent = true := by
        intro j hj
        have := hpre (j + 1) (Nat.succ_lt_succ hj)
        simpa using this
      have hbad' : resolvable completed (ds.get ⟨k', hk'⟩).parent = false := by
        simp only [List.get] at hbad
        exact hbad
      have hgoal : r.2.1 = false ∧ r.2.2 = some (depMsg (ds.get ⟨k', hk'⟩).parent) →
          r.2.1 = false ∧ r.2.2 = some (depMsg ((d :: ds).get ⟨k' + 1, hk⟩).parent) := by
        simp only [List.get]
        exact id
      refine hgoal ?_
      unfold resolvable at h0
      cases hg : dget completed (some d.parent) with
      | none =>
        rw [hg] at h0
        simp at h0
      | some prev =>
        rw [hg] at h0
        simp only [] at h0
        cases hc : prev.contract with
        | none =>
          rw [hc] at h0
          simp at h0
        | some pc =>
          cases hdt : d.dependency_type with
          | LIBRARY =>
            simp only [depsLoop, hg, hc, hdt] at hr
            exact ih k' _ _ hk' hpre' hbad' r hr
          | CONSTRUCTOR =>
            cases ha : a.args with
            | none =>
              simp only [depsLoop, hg, hc, hdt, ha] at hr
              exact Except.noConfusion hr
            | some ar =>
              simp only [depsLoop, hg, hc, hdt, ha] at hr
              exact ih k' _ _ hk' hpre' hbad' r hr
          | CONTRACT =>
            simp only [depsLoop, hg, hc, hdt] at hr
            exact ih k' _ _ hk' hpre' hbad' r hr
          | IMPL =>
            cases hec : encode_calldata ex pc d.method_name d.method_args with
            | error e =>
              simp only [depsLoop, hg, hc, hdt, hec] at hr
              exact Except.noConfusion hr
            | ok ar =>
              simp only [depsLoop, hg, hc, hdt, hec] at hr
              exact ih k' _ _ hk' hpre' hbad' r hr

/-- C5: (resolver part) for an action with a dependency whose parent is
missing from `completed` or whose completed entry has no contract record —
the first such dependency, all earlier ones being resolvable — a
non-crashing resolver run returns
`(false, "Dependency on contract <parent> cannot be resolved")`;
(driver part) when the resolver reports such an error for the head action,
`deploy` sets that action's state to `FAILED_DEPENDENCIES` with that
message, stops the pass, and leaves `workflow.completed` unchanged. -/
theorem C5_unresolved_dependency {σ : Type} (ex : Executor σ) :
    (∀ (a : Action) (completed : CompletedD) (ds : List Dependency) (k : Nat)
       (hk : k < ds.length),
       a.action_state ≠ some ActionState.COMPLETED →
       a.dependencies = some ds →
       (∀ j (hj : j < k),
         resolvable completed (ds.get ⟨j, hj.trans hk⟩).parent = true) →
       resolvable completed (ds.get ⟨k, hk⟩).parent = false →
       ∀ r, dependencies ex a completed = Except.ok r →
         r.2.1 = false ∧ r.2.2 = some (depMsg (ds.get ⟨k, hk⟩).parent))
    ∧ (∀ (wf : Workflow) (s : σ) (a : Action) (rest : List Action)
         (a₁ : Action) (c : Bool) (m : String),
       wf.actions = a :: rest →
       dependencies ex a wf.completed = Except.ok (a₁, c, some m) →
       m ≠ "" →
       deploy ex wf s = Except.ok ({ wf with
         actions := { a₁ with
           action_state := some ActionState.FAILED_DEPENDENCIES,
           error_message := some m } :: rest,
         completed := wf.completed }, s)) := by
  constructor
  · intro a completed ds k hk h1 h2 hpre hbad r hr
    unfold dependencies at hr
    rw [if_neg h1, h2] at hr
    exact depsLoop_unresolved ex completed ds k a [] hk hpre hbad r hr
  · intro wf s a rest a₁ c m hw hd hm
    have hst : strTruthy (some m) = true := by
      simp [strTruthy, hm]
    unfold deploy
    rw [hw]
    simp only [deployGo, hd, hst, if_true, List.nil_append, List.drop_zero]

/-- Witness for C5: concrete resolver run and driver pass over a plan whose
head action depends on the unresolvable parent `"Zed"`. -/
theorem C5_unresolved_dependency_witness :
    (((aC5, false, some (depMsg "Zed")) : Action × Bool × Option String).2.1 = false
      ∧ ((aC5, false, some (depMsg "Zed")) : Action × Bool × Option String).2.2 =
          some (depMsg (([dZed].get ⟨0, by decide⟩).parent)))
    ∧ deploy trivialExec wfC5 () = Except.ok ({ wfC5 with
        actions := { aC5 with
          action_state := some ActionState.FAILED_DEPENDENCIES,
          error_message := some (depMsg "Zed") } :: [],
        completed := wfC5.completed }, ()) := by
  constructor
  · exact (C5_unresolved_dependency trivialExec).1 aC5 [] [dZed] 0 (by decide)
      (by decide) rfl (fun j hj => absurd hj (Nat.not_lt_zero j)) rfl
      (aC5, false, some (depMsg "Zed")) rfl
  · exact (C5_unresolved_dependency trivialExec).2 wfC5 () aC5 [] aC5 false
      (depMsg "Zed") rfl rfl (by decide)

/-- If `checkLoop previous i acts` accepts, then every dependency with a
non-empty parent of the action at index `n` names either an entry of
`previous` or the `contract_name` of an action at a strictly smaller
index. -/
theorem checkLoop_parent_defined :
    ∀ (acts : List Action) (previous : List (Option String)) (i : Nat),
      checkLoop previous i acts = true →
      ∀ (n : Nat) (hn : n < acts.length) (d : Dependency),
        d ∈ (acts.get ⟨n, hn⟩).dependencies.getD [] →
        d.parent ≠ "" →
        (some d.parent) ∈ previous
        ∨ ∃ j, ∃ hj : j < acts.length, j < n ∧
            (acts.get ⟨j, hj⟩).contract_name = some d.parent := by
  intro acts
  induction acts with
  | nil =>
    intro previous i h n hn
    exact absurd hn (by simp)
  | cons a rest ih =>
    intro previous i h n hn d hd hne
    simp only [checkLoop] at h
    by_cases h1 : (decide (i = 0) && depsTruthy a) = true
    · rw [if_pos h1] at h
      exact Bool.noConfusion h
    · rw [if_neg h1] at h
      by_cases h2 : (!(a.dependencies.getD []).all fun dep =>
          !strTruthy (some dep.parent) || previous.contains (some dep.parent)) = true
      · rw [if_pos h2] at h
        exact Bool.noConfusion h
      · rw [if_neg h2] at h
        by_cases h3 : (a.action_type == ActionType.DEPLOY_PROXY
            && !(a.dependencies.getD []).any fun dep =>
                 dep.dependency_type == DependencyType.IMPL) = true
        · rw [if_pos h3] at h
          exact Bool.noConfusion h
        · rw [if_neg h3] at h
          have hall : ∀ dep ∈ a.dependencies.getD [],
              (!strTruthy (some dep.parent)
                || previous.contains (some dep.parent)) = true := by
            simp only [Bool.not_eq_true, Bool.not_eq_false'] at h2
            exact List.all_eq_true.mp h2
          cases n with
          | zero =>
            simp only [List.get] at hd
            have := hall d hd
            have hpt : strTruthy (some d.parent) = true := by
              simp [strTruthy, hne]
            rw [hpt] at this
            simp only [Bool.not_true, Bool.false_or] at this
            left
            have := List.contains_iff_exists_mem_beq.mp this
            rcases this with ⟨x, hx, hbeq⟩
            have : some d.parent = x := by
              have := eq_of_beq hbeq
              exact this
            rw [this]
            exact hx
          | succ n' =>
            simp only [List.get] at hd
            have hn' : n' < rest.length := Nat.lt_of_succ_lt_succ hn
            rcases ih (previous ++ [a.contract_name]) (i + 1) h n' hn' d hd hne
              with hmem | ⟨j, hj, hjn, hc⟩
            · rcases List.mem_append.mp hmem with hl | hr
              · exact Or.inl hl
              · right
                refine ⟨0, Nat.succ_pos _, Nat.succ_pos _, ?_⟩
                simp only [List.get]
                have : a.contract_name = some d.parent := by
                  rcases List.mem_singleton.mp hr with h
                  exact h.symm
                exact this
            · right
              refine ⟨j + 1, Nat.succ_lt_succ hj, Nat.succ_lt_succ hjn, ?_⟩
              simp only [List.get]
              exact hc

/-- C8 (amended): for every plan accepted by the `Workflow` validator, every
dependency `d` *with a non-empty parent* of the action at index `i` satisfies
`actions[j].contract_name == d.parent` for some `j < i`.  (A dependency with
`parent = ""` is skipped by the validator's truthiness check.) -/
theorem C8_parent_before_child (actions : List Action)
    (h : workflowCheck actions = true) :
    ∀ (i : Nat) (hi : i < actions.length) (d : Dependency),
      d ∈ (actions.get ⟨i, hi⟩).dependencies.getD [] →
      d.parent ≠ "" →
      ∃ j, ∃ hj : j < actions.length, j < i ∧
        (actions.get ⟨j, hj⟩).contract_name = some d.parent := by
  intro i hi d hd hne
  have h' : checkLoop [] 0 actions = true := by
    simp only [workflowCheck, Bool.and_eq_true] at h
    exact h.2
  rcases checkLoop_parent_defined actions [] 0 h' i hi d hd hne with hmem | hex
  · exact absurd hmem (List.not_mem_nil _)
  · exact hex

/-- Witness for C8 at a concrete validated two-action plan. -/
theorem C8_parent_before_child_witness :
    ∃ j, ∃ hj : j < ([libAct, cOnL] : List Action).length, j < 1 ∧
      (([libAct, cOnL] : List Action).get ⟨j, hj⟩).contract_name =
        some dOnL.parent :=
  C8_parent_before_child [libAct, cOnL] (by decide) 1 (by decide) dOnL
    (by decide) (by decide)

/-- Counterexample to C8 as stated: the validator accepts a plan containing
a dependency whose `parent` is the empty string (falsy, so the check is
skipped) even though no earlier action is named `""`. -/
theorem C8_counterexample :
    workflowCheck [libAct, mcEmptyParent] = true
    ∧ dEmptyParent ∈
        (([libAct, mcEmptyParent] : List Action).get ⟨1, by decide⟩).dependencies.getD []
    ∧ ¬ ∃ j, ∃ hj : j < ([libAct, mcEmptyParent] : List Action).length, j < 1 ∧
        (([libAct, mcEmptyParent] : List Action).get ⟨j, hj⟩).contract_name =
          some dEmptyParent.parent := by
  refine ⟨by decide, by decide, ?_⟩
  rintro ⟨j, hj, hj1, hc⟩
  have hj0 : j = 0 := by omega
  subst hj0
  have hget : (([libAct, mcEmptyParent] : List Action).get ⟨0, hj⟩) = libAct := rfl
  rw [hget] at hc
  exact absurd hc (by decide)

/-- The unresolved-dependency message is never the empty string (so the
driver's truthiness check on it always fires). -/
theorem depMsg_ne_empty (p : String) : depMsg p ≠ "" := by
  intro h
  have hlen := congrArg String.length h
  unfold depMsg at hlen
  rw [String.length_append, String.length_append] at hlen
  have h1 : 0 < ("Dependency on contract " : String).length := by decide
  have h2 : ("" : String).length = 0 := rfl
  omega

/-- A dependency-loop run that returns `carry_on = false` always carries an
unresolved-parent message. -/
theorem depsLoop_false_msg {σ : Type} (ex : Executor σ)
    (completed : CompletedD) :
    ∀ (ds : List Dependency) (a : Action) (libs : Libs) (a₁ : Action)
      (err : Option String),
      depsLoop ex completed a libs ds = Except.ok (a₁, false, err) →
      ∃ p, err = some (depMsg p) := by
  intro ds
  induction ds with
  | nil =>
    intro a libs a₁ err h
    simp only [depsLoop, Except.ok.injEq, Prod.mk.injEq] at h
    exact absurd h.2.1 (by simp)
  | cons d ds ih =>
    intro a libs a₁ err h
    cases hg : dget completed (some d.parent) with
    | none =>
      simp only [depsLoop, hg, Except.ok.injEq, Prod.mk.injEq] at h
      exact ⟨d.parent, h.2.2.symm⟩
    | some prev =>
      cases hc : prev.contract with
      | none =>
        simp only [depsLoop, hg, hc, Except.ok.injEq, Prod.mk.injEq] at h
        exact ⟨d.parent, h.2.2.symm⟩
      | some pc =>
        cases hdt : d.dependency_type with
        | LIBRARY =>
          simp only [depsLoop, hg, hc, hdt] at h
          exact ih _ _ _ _ h
        | CONSTRUCTOR =>
          cases ha : a.args with
          | none =>
            simp only [depsLoop, hg, hc, hdt, ha] at h
            exact Except.noConfusion h
          | some ar =>
            simp only [depsLoop, hg, hc, hdt, ha] at h
            exact ih _ _ _ _ h
        | CONTRACT =>
          simp only [depsLoop, hg, hc, hdt] at h
          exact ih _ _ _ _ h
        | IMPL =>
          cases hec : encode_calldata ex pc d.method_name d.method_args with
          | error e =>
            simp only [depsLoop, hg, hc, hdt, hec] at h
            exact Except.noConfusion h
          | ok ar =>
            simp only [depsLoop, hg, hc, hdt, hec] at h
            exact ih _ _ _ _ h

/-- The resolver returns `carry_on = false` with a falsy error only for
actions already in state `COMPLETED` (the driver's skip sentinel). -/
theorem dependencies_false_completed {σ : Type} (ex : Executor σ)
    (a : Action) (completed : CompletedD) (a₁ : Action) (err : Option String)
    (h : dependencies ex a completed = Except.ok (a₁, false, err))
    (he : strTruthy err = false) :
    a.action_state = some ActionState.COMPLETED := by
  by_cases hs : a.action_state = some ActionState.COMPLETED
  · exact hs
  · exfalso
    unfold dependencies at h
    rw [if_neg hs] at h
    rcases depsLoop_false_msg ex completed _ a [] a₁ err h with ⟨p, hp⟩
    rw [hp] at he
    have ht : strTruthy (some (depMsg p)) = true := by
      simp [strTruthy, depMsg_ne_empty p]
    rw [ht] at he
    exact Bool.noConfusion he

/-- Over a plan tail with no pre-`COMPLETED` action, the source driver loop
(with its `count`/slice mechanism) computes exactly the spec-shaped removal
driver: dropping `count` elements of the mutated full list coincides with
structural removal of the promoted prefix. -/
theorem deployGo_drop_eq_spec {σ : Type} (ex : Executor σ) (w0 : Workflow) :
    ∀ (todo done : List Action) (comp : CompletedD) (s : σ),
      (∀ a ∈ todo, a.action_state ≠ some ActionState.COMPLETED) →
      deploySpecGo ex w0 done todo comp s =
        (deployGo ex w0 done todo done.length comp s).map
          (fun r => (r.1.drop r.2.1, r.2.2)) := by
  intro todo
  induction todo with
  | nil =>
    intro done comp s _
    simp [deployGo, deploySpecGo, Except.map, List.drop_length]
  | cons a rest ih =>
    intro done comp s hnc
    have hna : a.action_state ≠ some ActionState.COMPLETED :=
      hnc a (List.mem_cons_self a rest)
    have hnr : ∀ x ∈ rest, x.action_state ≠ some ActionState.COMPLETED :=
      fun x hx => hnc x (List.mem_cons_of_mem a hx)
    cases hd : dependencies ex a comp with
    | error e =>
      simp [deployGo, deploySpecGo, hd, Except.map]
    | ok t =>
      obtain ⟨a₁, carry, err⟩ := t
      by_cases he : strTruthy err = true
      · simp only [deployGo, deploySpecGo, hd, he, if_true]
        simp [Except.map, List.drop_left]
      · have he' : strTruthy err = false := by
          revert he
          cases strTruthy err <;> simp
        cases carry with
        | false =>
          exact absurd
            (dependencies_false_completed ex a comp a₁ err hd he') hna
        | true =>
          simp only [deployGo, deploySpecGo, hd, he', Bool.false_eq_true,
            if_false, Bool.not_true, Bool.not_false, if_true]
          cases hh : dispatchHandler ex { a₁ with error_message := none }
              { w0 with
                actions := done ++ { a₁ with error_message := none } :: rest,
                completed := comp } s with
          | error e => simp [hh, Except.map]
          | ok t₂ =>
            obtain ⟨a₃, c₃, s₃⟩ := t₂
            cases c₃ with
            | false => simp [hh, Except.map, List.drop_left]
            | true =>
              simp only [hh, Bool.not_true, Bool.false_eq_true, if_false]
              have hrec := ih (done ++ [a₃])
                (dinsert a₃.contract_name a₃ comp) s₃ hnr
              rw [List.length_append] at hrec
              simpa using hrec

/-- C1 (amended: for workflows none of whose pending actions is already in
state `COMPLETED`): `deploy` computes the spec post-condition driver
`deploySpec` — exactly the actions whose handler returned `carry_on = true`
are removed from `workflow.actions` and inserted into `workflow.completed`
keyed by their post-resolution `contract_name`, and the head of the
remaining `workflow.actions`, if any, is the first failed or still-pending
action carrying its most recent `action_state` and `error_message`. -/
theorem C1_partition {σ : Type} (ex : Executor σ) (wf : Workflow) (s : σ)
    (h : ∀ a ∈ wf.actions, a.action_state ≠ some ActionState.COMPLETED) :
    deploy ex wf s = deploySpec ex wf s := by
  have key := deployGo_drop_eq_spec ex wf wf.actions [] wf.completed s h
  simp only [List.length_nil] at key
  unfold deploy deploySpec
  rw [key]
  cases hg : deployGo ex wf [] wf.actions 0 wf.completed s with
  | error e => simp [Except.map]
  | ok r =>
    obtain ⟨full, r₂⟩ := r
    obtain ⟨count, comp, s'⟩ := r₂
    simp [Except.map]

/-- Witness for C1 at a concrete all-pending workflow. -/
theorem C1_partition_witness :
    deploy trivialExec wfC1w () = deploySpec trivialExec wfC1w () :=
  C1_partition trivialExec wfC1w () (by decide)

/-- Counterexample to C1 as stated (over *every* workflow): in
`wfC1 = [aDone (state COMPLETED), bAct]`, `bAct`'s handler returns
`carry_on = true` and `bAct` is inserted into `completed` under `"B"`, yet
it is *not* removed from `workflow.actions` — the positional slice removed
`aDone` instead, so the promoted action is also the head of the remaining
plan (which the claim says is a failed or still-pending action). -/
theorem C1_counterexample :
    deploy trivialExec wfC1 () =
      Except.ok ({ wfC1 with
        actions := [bDone],
        completed := [(some "B", bDone)] }, ())
    ∧ dispatchHandler trivialExec bAct
        { wfC1 with actions := [aDone, bAct], completed := [] } () =
      Except.ok (bDone, true, ()) :=
  ⟨rfl, rfl⟩

end SimbaWf
